import Mathlib

/-!
Shallow embedding of the LLM-directed browser test runner.

Source files embedded here:
* `langchain_agent.py` — JSON extraction (`_extract_json`), planning fallback
  (`_plan_actions`), action normalization (`normalize_action`) and the
  sequential executor (`execute_test`).
* `playwright_tools.py` — the `PlaywrightController` session operations
  (`open_page`, `fill`, `click`, `assert_text`, `wait_for`,
  `get_page_elements`) together with their per-URL DOM cache.

Python dicts are ordered association lists, JSON numbers keep their source
lexeme, and the browser/LLM collaborators are abstracted by explicit
environments (which element appears within the bounded wait, whether a
navigation raises, the raw model output text).
-/

/-- JSON values as produced by the Python `json` module; numbers keep their
source lexeme.  Objects are ordered key-value lists, mirroring Python dicts. -/
inductive Json where
  | null : Json
  | bool : Bool → Json
  | num : String → Json
  | str : String → Json
  | arr : List Json → Json
  | obj : List (String × Json) → Json

/-- Python dict modelled as an ordered association list. -/
abbrev PyDict := List (String × Json)

/-- Association-list lookup (first matching key wins, as in a Python dict). -/
def alookup {α : Type} : List (String × α) → String → Option α
  | [], _ => none
  | (k, v) :: rest, q => if k = q then some v else alookup rest q

/-- Python subscript access `d.get(k)`. -/
def pyGet (d : PyDict) (k : String) : Option Json :=
  alookup d k

/-- Python membership test `k in d`. -/
def hasKey (d : PyDict) (k : String) : Bool :=
  (pyGet d k).isSome

/-- Python assignment `d[k] = v`: an existing key keeps its position and gets
the new value, a fresh key is appended. -/
def pyInsert (d : PyDict) (k : String) (v : Json) : PyDict :=
  match d with
  | [] => [(k, v)]
  | (k2, v2) :: rest => if k2 = k then (k2, v) :: rest else (k2, v2) :: pyInsert rest k v

/-- Python `d.update(e)`. -/
def pyUpdate (d : PyDict) (e : PyDict) : PyDict :=
  e.foldl (fun acc kv => pyInsert acc kv.1 kv.2) d

/-- Whitespace accepted between tokens by the Python `json` parser. -/
def isJsonWs (c : Char) : Bool :=
  c = ' ' || c = '\t' || c = '\n' || c = '\r'

/-- Whitespace for Python `str.strip` and the regex class `\s` (ASCII part). -/
def isPyWs (c : Char) : Bool :=
  c = ' ' || c = '\t' || c = '\n' || c = '\r' || c = Char.ofNat 11 || c = Char.ofNat 12

/-- Drop leading JSON whitespace. -/
def skipWs (s : List Char) : List Char :=
  s.dropWhile isJsonWs

/-- Python `s.strip()`. -/
def pyStrip (s : String) : String :=
  String.mk (((s.toList.dropWhile isPyWs).reverse.dropWhile isPyWs).reverse)

/-- Does the needle occur at the start of the haystack? -/
def listStarts : List Char → List Char → Bool
  | [], _ => true
  | _ :: _, [] => false
  | a :: as, b :: bs => a = b && listStarts as bs

/-- Substring containment, Python `n in h` on strings. -/
def listSub (n : List Char) (h : List Char) : Bool :=
  match h with
  | [] => n.isEmpty
  | _ :: t => listStarts n h || listSub n t

/-- Substring containment on `String`. -/
def strSub (n h : String) : Bool :=
  listSub n.toList h.toList

/-- Consume an expected literal from the front of the input. -/
def takeLit : List Char → List Char → Option (List Char)
  | [], s => some s
  | _ :: _, [] => none
  | c :: cs, x :: xs => if c = x then takeLit cs xs else none

/-- Value of one hexadecimal digit. -/
def hexVal (c : Char) : Option Nat :=
  if '0' ≤ c ∧ c ≤ '9' then some (c.toNat - '0'.toNat)
  else if 'a' ≤ c ∧ c ≤ 'f' then some (c.toNat - 'a'.toNat + 10)
  else if 'A' ≤ c ∧ c ≤ 'F' then some (c.toNat - 'A'.toNat + 10)
  else none

/-- Body of a JSON string, the opening quote already consumed.  Returns the
decoded characters and the rest of the input.  Unescaped control characters
and unknown escapes are rejected, as in the strict Python parser. -/
def parseStrL : List Char → Option (List Char × List Char)
  | [] => none
  | c :: rest =>
    if c = '"' then some ([], rest)
    else if c = '\\' then
      match rest with
      | [] => none
      | e :: rest2 =>
        if e = '"' ∨ e = '\\' ∨ e = '/' then
          (parseStrL rest2).map (fun p => (e :: p.1, p.2))
        else if e = 'b' then (parseStrL rest2).map (fun p => (Char.ofNat 8 :: p.1, p.2))
        else if e = 'f' then (parseStrL rest2).map (fun p => (Char.ofNat 12 :: p.1, p.2))
        else if e = 'n' then (parseStrL rest2).map (fun p => ('\n' :: p.1, p.2))
        else if e = 'r' then (parseStrL rest2).map (fun p => ('\r' :: p.1, p.2))
        else if e = 't' then (parseStrL rest2).map (fun p => ('\t' :: p.1, p.2))
        else if e = 'u' then
          match rest2 with
          | h1 :: h2 :: h3 :: h4 :: rest3 =>
            match hexVal h1, hexVal h2, hexVal h3, hexVal h4 with
            | some a, some b, some c2, some d =>
              (parseStrL rest3).map
                (fun p => (Char.ofNat (((a * 16 + b) * 16 + c2) * 16 + d) :: p.1, p.2))
            | _, _, _, _ => none
          | _ => none
        else none
    else if c.toNat < 32 then none
    else (parseStrL rest).map (fun p => (c :: p.1, p.2))

/-- Integer part of a JSON number: `0` or a nonzero digit followed by digits. -/
def numIntPart : List Char → Option (List Char × List Char)
  | [] => none
  | c :: rest =>
    if c = '0' then some (['0'], rest)
    else if c.isDigit then
      some (c :: rest.takeWhile Char.isDigit, rest.dropWhile Char.isDigit)
    else none

/-- Optional fraction part `.digits`; consumed only when fully present. -/
def numFrac : List Char → (List Char × List Char)
  | '.' :: c :: rest =>
    if c.isDigit then ('.' :: c :: rest.takeWhile Char.isDigit, rest.dropWhile Char.isDigit)
    else ([], '.' :: c :: rest)
  | s => ([], s)

/-- Optional exponent part; consumed only when fully present. -/
def numExp : List Char → (List Char × List Char)
  | [] => ([], [])
  | e :: rest =>
    if e = 'e' ∨ e = 'E' then
      match rest with
      | [] => ([], e :: rest)
      | si :: rest2 =>
        if si = '+' ∨ si = '-' then
          match rest2 with
          | [] => ([], e :: rest)
          | d :: _ =>
            if d.isDigit then
              (e :: si :: rest2.takeWhile Char.isDigit, rest2.dropWhile Char.isDigit)
            else ([], e :: rest)
        else if si.isDigit then
          (e :: rest.takeWhile Char.isDigit, rest.dropWhile Char.isDigit)
        else ([], e :: rest)
    else ([], e :: rest)

/-- JSON number (regex `-?(0|[1-9]\d*)(\.\d+)?([eE][-+]?\d+)?`); the lexeme is
kept verbatim. -/
def parseNumL (s : List Char) : Option (Json × List Char) :=
  let sp : List Char × List Char :=
    match s with
    | '-' :: r => (['-'], r)
    | _ => ([], s)
  match numIntPart sp.2 with
  | none => none
  | some (ip, s2) =>
    let fp := numFrac s2
    let ep := numExp fp.2
    some (Json.num (String.mk (sp.1 ++ ip ++ fp.1 ++ ep.1)), ep.2)

mutual

/-- One JSON value, fuel-indexed recursive descent mirroring the Python
scanner (including the `NaN` / `Infinity` / `-Infinity` extensions). -/
def parseValue : Nat → List Char → Option (Json × List Char)
  | 0, _ => none
  | _ + 1, [] => none
  | fuel + 1, c :: rest =>
    if c = '"' then (parseStrL rest).map (fun p => (Json.str (String.mk p.1), p.2))
    else if c = '[' then
      match skipWs rest with
      | ']' :: r => some (Json.arr [], r)
      | s1 => (parseItems fuel s1).map (fun p => (Json.arr p.1, p.2))
    else if c = '{' then
      match skipWs rest with
      | '}' :: r => some (Json.obj [], r)
      | s1 =>
        (parseMembers fuel s1).map
          (fun p => (Json.obj (p.1.foldl (fun d kv => pyInsert d kv.1 kv.2) []), p.2))
    else if c = 'n' then (takeLit ['u', 'l', 'l'] rest).map (fun r => (Json.null, r))
    else if c = 't' then (takeLit ['r', 'u', 'e'] rest).map (fun r => (Json.bool true, r))
    else if c = 'f' then (takeLit ['a', 'l', 's', 'e'] rest).map (fun r => (Json.bool false, r))
    else if c = 'N' then (takeLit ['a', 'N'] rest).map (fun r => (Json.num "NaN", r))
    else if c = 'I' then
      (takeLit ['n', 'f', 'i', 'n', 'i', 't', 'y'] rest).map (fun r => (Json.num "Infinity", r))
    else if c = '-' then
      match rest with
      | 'I' :: _ =>
        (takeLit ['I', 'n', 'f', 'i', 'n', 'i', 't', 'y'] rest).map
          (fun r => (Json.num "-Infinity", r))
      | _ => parseNumL (c :: rest)
    else parseNumL (c :: rest)

/-- Nonempty comma-separated array items followed by a closing bracket. -/
def parseItems : Nat → List Char → Option (List Json × List Char)
  | 0, _ => none
  | fuel + 1, s =>
    match parseValue fuel s with
    | none => none
    | some (v, r) =>
      match skipWs r with
      | ',' :: r2 => (parseItems fuel (skipWs r2)).map (fun p => (v :: p.1, p.2))
      | ']' :: r2 => some ([v], r2)
      | _ => none

/-- Nonempty comma-separated object members followed by a closing brace.
Pairs are returned in source order; the caller folds them into a dict, so a
duplicate key keeps its first position with the last value, as in Python. -/
def parseMembers : Nat → List Char → Option (List (String × Json) × List Char)
  | 0, _ => none
  | fuel + 1, s =>
    match s with
    | '"' :: r0 =>
      match parseStrL r0 with
      | none => none
      | some (kcs, r1) =>
        match skipWs r1 with
        | ':' :: r2 =>
          match parseValue fuel (skipWs r2) with
          | none => none
          | some (v, r3) =>
            match skipWs r3 with
            | ',' :: r4 =>
              (parseMembers fuel (skipWs r4)).map (fun p => ((String.mk kcs, v) :: p.1, p.2))
            | '}' :: r4 => some ([(String.mk kcs, v)], r4)
            | _ => none
        | _ => none
    | _ => none

end

/-- Python `json.loads`: one JSON document with nothing but whitespace
around it. -/
def jsonLoads (s : List Char) : Option Json :=
  match parseValue (s.length + 1) (skipWs s) with
  | some (v, rest) => if skipWs rest = [] then some v else none
  | none => none

/-- Does the character equal the opening bracket? -/
def isLB (c : Char) : Bool :=
  c = '['

/-- Does the character equal the closing bracket? -/
def isRB (c : Char) : Bool :=
  c = ']'

/-- Semantics of `re.search(r"(\[[\s\S]*\])", text)`: the leftmost match of
the greedy pattern is the substring from the first usable opening bracket to
the last closing bracket of the whole text, when such a pair exists. -/
def regexFirstToLast (s : List Char) : Option (List Char) :=
  if (((s.dropWhile (fun c => ! isLB c)).reverse.dropWhile (fun c => ! isRB c)).reverse).isEmpty
  then none
  else some (((s.dropWhile (fun c => ! isLB c)).reverse.dropWhile (fun c => ! isRB c)).reverse)

/-- First repair step, Python `text.replace` of single quotes by double
quotes (applied to every occurrence, even inside string literals). -/
def replaceQuotes (s : List Char) : List Char :=
  s.map (fun c => if c = Char.ofNat 39 then '"' else c)

/-- Fuel-indexed scan for the second repair step; every step consumes at
least one character, so fuel `length + 1` never runs out. -/
def stripTrailCommaF : Nat → List Char → List Char
  | 0, _ => []
  | _ + 1, [] => []
  | fuel + 1, c :: rest =>
    if c = ',' then
      match rest.dropWhile isPyWs with
      | b :: tail =>
        if b = '}' ∨ b = ']' then b :: stripTrailCommaF fuel tail
        else c :: stripTrailCommaF fuel rest
      | [] => c :: stripTrailCommaF fuel rest
    else c :: stripTrailCommaF fuel rest

/-- Second repair step, `re.sub(r",\s*([}\]])", r"\1", s)`: each comma that is
followed (across whitespace) by a closing brace or bracket is dropped together
with that whitespace; scanning resumes after the emitted bracket. -/
def stripTrailComma (s : List Char) : List Char :=
  stripTrailCommaF (s.length + 1) s

/-- The combined repair pass of `_extract_json`. -/
def repairChars (s : List Char) : List Char :=
  stripTrailComma (replaceQuotes s)

/-- Embedding of `LlmAgent._extract_json`: regex-search the bracketed array,
strict `json.loads`, then `json.loads` of the repaired text; `none` when both
fail or when no bracketed substring exists. -/
def extract_json (text : String) : Option Json :=
  match regexFirstToLast text.toList with
  | none => none
  | some m =>
    match jsonLoads m with
    | some v => some v
    | none => jsonLoads (repairChars m)

/-- The single fallback action synthesized by `_plan_actions` when
extraction yields no (nonempty) result. -/
def explainFallback (raw : String) : Json :=
  Json.obj
    [("action", Json.str "explain"),
     ("message", Json.str "Failed to parse model output"),
     ("raw", Json.str raw)]

/-- Embedding of `LlmAgent._plan_actions` as a function of the raw model
output text (the LLM transport is an external collaborator; `_call_llm`
never raises, so the raw text is the whole interface).  Python's
`if parsed:` is falsy exactly for `None` and the empty list; a successful
extraction is always an array since the matched text starts with `[`
(lemma `extract_json_isArr` below). -/
def plan_actions (raw : String) : List Json :=
  match extract_json raw with
  | some (Json.arr (x :: xs)) => x :: xs
  | _ => [explainFallback raw]

/-- The fixed shorthand-key priority list of `normalize_action`. -/
def priorityKeys : List String :=
  ["click", "fill", "assert", "wait", "open", "explain"]

/-- The scan loop of `normalize_action`: the first present key becomes the
kind; a string value becomes the selector, a dict value is merged into the
fresh action, anything else leaves only the kind. -/
def scanKeys : List String → PyDict → PyDict
  | [], act => act
  | k :: ks, act =>
    if hasKey act k then
      match pyGet act k with
      | some (Json.str s) => [("action", Json.str k), ("selector", Json.str s)]
      | some (Json.obj d) => pyUpdate [("action", Json.str k)] d
      | _ => [("action", Json.str k)]
    else scanKeys ks act

/-- Embedding of `normalize_action` from `execute_test`. -/
def normalize_action (act : PyDict) : PyDict :=
  if hasKey act "action" then act else scanKeys priorityKeys act

/-- Snapshot of one element matched by a selector: whether it becomes visible
within the bounded wait (default 5000 ms) and its inner text. -/
structure Elem where
  appears : Bool
  text : String

/-- One candidate element returned by `query_selector_all`, as the
summarization loop sees it; `broken` marks an element whose attribute
extraction raises, which the loop skips silently. -/
structure PageElem where
  broken : Bool
  tag : String
  rawText : String
  idAttr : Option String
  testId : Option String
  nameAttr : Option String
  placeholder : Option String
  ariaLabel : Option String
  xpathHint : String
  visible : Bool

/-- Behaviour of the live page during one test: its URL, whether `goto` of a
given URL raises (and with which message), whether `query_selector_all`
raises, the candidate elements for summarization, and the selector-to-element
map consulted by the bounded-wait locator operations. -/
structure PageEnv where
  url : String
  gotoErr : String → Option String
  queryFails : Bool
  domElements : List PageElem
  elems : List (String × Elem)

/-- State of a `PlaywrightController`: the optional current page and the
per-URL DOM summary cache. -/
structure Controller where
  page : Option PageEnv
  domCache : List (String × List PyDict)

/-- The message of the `RuntimeError` raised by session operations invoked
with no page available. -/
def noPageMsg : String :=
  "No page available. Call new_context() first."

/-- Embedding of `PlaywrightController.open_page`: raises with no page,
otherwise navigates and propagates any `goto` failure (its body has no
try/except).  A non-string selector makes `goto` raise. -/
def open_page (c : Controller) (sel : Option String) : Except String Unit :=
  match c.page with
  | none => Except.error noPageMsg
  | some pg =>
    match sel with
    | none => Except.error "Page.goto: url: expected string"
    | some u =>
      match pg.gotoErr u with
      | some msg => Except.error msg
      | none => Except.ok ()

/-- The bounded-wait locator step `page.locator(sel); wait_for(visible,
timeout)` shared by `fill`, `click`, `assert_text` and (as a model of
`wait_for_selector`) `wait_for`: an error is the exception it raises when the
element never becomes visible in time or the selector argument is invalid. -/
def locatorWait (pg : PageEnv) (sel : Option String) : Except String Elem :=
  match sel with
  | none => Except.error "Locator expected a string selector"
  | some s =>
    match alookup pg.elems s with
    | some e =>
      if e.appears then Except.ok e
      else Except.error ("Timeout 5000ms exceeded waiting for " ++ s)
    | none => Except.error ("Timeout 5000ms exceeded waiting for " ++ s)

/-- Embedding of `PlaywrightController.fill`: raises with no page; the whole
locator-wait-and-fill body sits in a `try` whose handler only logs a warning,
so every per-action failure is swallowed and the call returns normally. -/
def fill (c : Controller) (sel : Option String) (value : String) : Except String Unit :=
  match c.page with
  | none => Except.error noPageMsg
  | some pg =>
    match locatorWait pg sel with
    | Except.ok _ => Except.ok ()
    | Except.error _ => Except.ok ()

/-- Embedding of `PlaywrightController.click`: same swallowing shape as
`fill`. -/
def click (c : Controller) (sel : Option String) : Except String Unit :=
  match c.page with
  | none => Except.error noPageMsg
  | some pg =>
    match locatorWait pg sel with
    | Except.ok _ => Except.ok ()
    | Except.error _ => Except.ok ()

/-- Embedding of `PlaywrightController.assert_text`: returns `False` with no
page; otherwise waits for the element and checks
`expected.strip() in actual`; timeouts and any other failure return `False`.
It never raises. -/
def assert_text (c : Controller) (sel : Option String) (expected : String) :
    Except String Bool :=
  match c.page with
  | none => Except.ok false
  | some pg =>
    match locatorWait pg sel with
    | Except.ok e => Except.ok (strSub (pyStrip expected) e.text)
    | Except.error _ => Except.ok false

/-- Embedding of `PlaywrightController.wait_for`: raises with no page; the
inner `wait_for_selector` failure is caught and only logged. -/
def wait_for (c : Controller) (sel : Option String) : Except String Unit :=
  match c.page with
  | none => Except.error noPageMsg
  | some pg =>
    match locatorWait pg sel with
    | Except.ok _ => Except.ok ()
    | Except.error _ => Except.ok ()

/-- Render one optional attribute as the summary dict stores it. -/
def optJson : Option String → Json
  | some s => Json.str s
  | none => Json.null

/-- Python slice `s[:200]`. -/
def take200 (s : String) : String :=
  String.mk (s.toList.take 200)

/-- The summary dict built for one element by `get_page_elements`. -/
def elemToDict (e : PageElem) : PyDict :=
  [("tag", Json.str e.tag),
   ("text", Json.str (take200 (pyStrip e.rawText))),
   ("id", optJson e.idAttr),
   ("data-testid", optJson e.testId),
   ("name", optJson e.nameAttr),
   ("placeholder", optJson e.placeholder),
   ("aria-label", optJson e.ariaLabel),
   ("xpath_hint", Json.str e.xpathHint),
   ("visible", Json.bool e.visible)]

/-- Embedding of `PlaywrightController.get_page_elements` (the body of
`describe_page`).  Returns the summary, the controller afterwards, and how
many times `query_selector_all` was invoked during the call.  No page gives
an empty summary; a cache hit short-circuits; a failing query returns an
empty summary *without* caching; otherwise broken elements are skipped
silently and the summary is cached under the current URL. -/
def get_page_elements (c : Controller) : List PyDict × Controller × Nat :=
  match c.page with
  | none => ([], c, 0)
  | some pg =>
    match alookup c.domCache pg.url with
    | some cached => (cached, c, 0)
    | none =>
      if pg.queryFails then ([], c, 1)
      else
        let summary := (pg.domElements.filter (fun e => ! e.broken)).map elemToDict
        (summary, { c with domCache := c.domCache ++ [(pg.url, summary)] }, 1)

/-- One failure record appended to `result["errors"]`: the dict shapes
`\x7b"message"\x7d` (describe failure), `\x7b"index", "message"\x7d`
(explain / unknown kind) and `\x7b"index", "error", "action"\x7d`
(caught exception). -/
structure ErrRecord where
  index : Option Nat
  message : Option Json
  errStr : Option String
  action : Option PyDict

/-- The dict returned by `execute_test`. -/
structure TestResult where
  instruction : String
  actions : List Json
  status : String
  errors : List ErrRecord

/-- Python `str()` of the value `act.get("action")`, as interpolated into the
unknown-kind message (container rendering abbreviated). -/
def pyToStr : Option Json → String
  | none => "None"
  | some Json.null => "None"
  | some (Json.bool true) => "True"
  | some (Json.bool false) => "False"
  | some (Json.num lex) => lex
  | some (Json.str s) => s
  | some (Json.arr _) => "[...]"
  | some (Json.obj _) => "\x7b...\x7d"

/-- Field access `act.get(k)` narrowed to a string with default `""`; a
non-string value only ever flows into calls whose outcome does not depend on
it (`fill`'s value raises inside the swallowed try, `assert_text` with a
non-string expected returns `False`, and its result is discarded anyway). -/
def strField (act : PyDict) (k : String) : String :=
  match pyGet act k with
  | some (Json.str s) => s
  | _ => ""

/-- Selector argument `act.get("selector")`: a missing or non-string selector
behaves as an invalid locator/goto argument, collapsed to `none`. -/
def selField (act : PyDict) : Option String :=
  match pyGet act "selector" with
  | some (Json.str s) => some s
  | _ => none

/-- Python `act.get(k, d)`. -/
def pyGetDflt (act : PyDict) (k : String) (d : Json) : Json :=
  match pyGet act k with
  | some v => v
  | none => d

/-- One iteration of the executor's dispatch `try` block on a normalized
action: `Except.error` is an exception escaping into the handler,
`Except.ok (some r)` is a record appended without an exception (explain /
unknown kind), `Except.ok none` is a silent pass.  The boolean result of
`assert_text` is discarded, exactly as in the source. -/
def stepRes (c : Controller) (idx : Nat) (act : PyDict) : Except String (Option ErrRecord) :=
  match pyGet act "action" with
  | some (Json.str "open") => (open_page c (selField act)).map (fun _ => none)
  | some (Json.str "fill") =>
    (fill c (selField act) (strField act "value")).map (fun _ => none)
  | some (Json.str "click") => (click c (selField act)).map (fun _ => none)
  | some (Json.str "assert") =>
    (assert_text c (selField act) (strField act "expected")).map (fun _ => none)
  | some (Json.str "wait") => (wait_for c (selField act)).map (fun _ => none)
  | some (Json.str "explain") =>
    Except.ok (some ⟨some idx, some (pyGetDflt act "message" (Json.str "explain step")), none, none⟩)
  | a =>
    Except.ok
      (some ⟨some idx,
             some (Json.str ("Unknown action \x27" ++ pyToStr a ++ "\x27")),
             none, none⟩)

/-- The executor loop of `execute_test`: sequential, one isolated failure
boundary per action, a caught exception flips the running status to
`"failed"` and appends a record, then execution continues.  A planned action
that is not a dict makes `act.get` raise outside the `try`, crashing the
whole call (modelled as `Except.error`). -/
def execActions (c : Controller) :
    List Json → Nat → String → List ErrRecord → Except String (String × List ErrRecord)
  | [], _, status, errs => Except.ok (status, errs)
  | raw :: rest, idx, status, errs =>
    match raw with
    | Json.obj act0 =>
      match stepRes c idx (normalize_action act0) with
      | Except.ok none => execActions c rest (idx + 1) status errs
      | Except.ok (some r) => execActions c rest (idx + 1) status (errs ++ [r])
      | Except.error e =>
        execActions c rest (idx + 1) "failed"
          (errs ++ [⟨some idx, none, some e, some (normalize_action act0)⟩])
    | _ => Except.error "AttributeError: planned action is not a dict"

/-- Embedding of `LlmAgent.execute_test`.  `describeErr` models the guarded
`describe_page()` call raising (its record carries no index); `llmRaw` is the
raw LLM response text, whose planned actions are stored in the result; the
final step flips the status to `"failed"` whenever any error was recorded. -/
def initErrs (describeErr : Option String) : List ErrRecord :=
  match describeErr with
  | some m => [⟨none, some (Json.str ("describe_page() failed: " ++ m)), none, none⟩]
  | none => []

def execute_test (c : Controller) (describeErr : Option String) (llmRaw : String)
    (test_step : String) : Except String TestResult :=
  (execActions c (plan_actions llmRaw) 0 "ok" (initErrs describeErr)).map
    (fun p =>
      { instruction := test_step, actions := plan_actions llmRaw,
        status := if p.2.isEmpty then p.1 else "failed", errors := p.2 })

/-! Supporting lemmas about the regex search and the shape of extraction
results. -/

theorem dropWhile_all_append {α : Type} (p : α → Bool) :
    ∀ (l r : List α), l.all p = true → (l ++ r).dropWhile p = r.dropWhile p := by
  intro l r h
  induction l with
  | nil => simp
  | cons a as ih =>
    simp only [List.all_cons, Bool.and_eq_true] at h
    simp [List.dropWhile_cons, h.1, ih h.2]

theorem dropWhile_cons_false {α : Type} (p : α → Bool) (a : α) (l : List α)
    (h : p a = false) : (a :: l).dropWhile p = a :: l := by
  simp [List.dropWhile_cons, h]

theorem dropWhile_all_nil {α : Type} (p : α → Bool) :
    ∀ (l : List α), l.all p = true → l.dropWhile p = [] := by
  intro l h
  induction l with
  | nil => simp
  | cons a as ih =>
    simp only [List.all_cons, Bool.and_eq_true] at h
    simp [List.dropWhile_cons, h.1, ih h.2]

theorem dropWhile_head_not {α : Type} (p : α → Bool) :
    ∀ (l : List α) (x : α) (xs : List α), l.dropWhile p = x :: xs → p x = false := by
  intro l
  induction l with
  | nil => intro x xs h; simp [List.dropWhile] at h
  | cons a as ih =>
    intro x xs h
    rw [List.dropWhile_cons] at h
    by_cases hp : p a = true
    · rw [if_pos hp] at h; exact ih x xs h
    · rw [if_neg hp] at h
      cases h
      simpa using hp

theorem regex_decomp (pre core post : List Char)
    (hpre : pre.all (fun c => ! isLB c) = true)
    (hpost : post.all (fun c => ! isRB c) = true)
    (hh : ∃ t1, core = '[' :: t1)
    (hl : ∃ t2, core = t2 ++ [']']) :
    regexFirstToLast (pre ++ core ++ post) = some core := by
  obtain ⟨t1, rfl⟩ := hh
  obtain ⟨t2, ht2⟩ := hl
  unfold regexFirstToLast
  have hA : (pre ++ ('[' :: t1) ++ post).dropWhile (fun c => ! isLB c)
      = '[' :: (t1 ++ post) := by
    rw [List.append_assoc]
    rw [dropWhile_all_append _ pre _ hpre]
    simp only [List.cons_append]
    exact dropWhile_cons_false _ _ _ (by simp [isLB])
  rw [hA]
  have hB : (('[' :: (t1 ++ post)).reverse).dropWhile (fun c => ! isRB c)
      = ('[' :: t1).reverse := by
    have hrev : ('[' :: (t1 ++ post)).reverse = post.reverse ++ ('[' :: t1).reverse := by
      simp [List.cons_append]
    rw [hrev]
    rw [dropWhile_all_append _ _ _ (by simp only [List.all_reverse]; exact hpost)]
    rw [ht2]
    simp only [List.reverse_append, List.reverse_cons, List.reverse_nil, List.nil_append]
    exact dropWhile_cons_false _ _ _ (by simp [isRB])
  simp only [hB, List.reverse_reverse]
  simp

def noBracket (s : List Char) : Bool :=
  match s.dropWhile (fun c => ! isLB c) with
  | [] => true
  | _ :: rest => rest.all (fun c => ! isRB c)

theorem noBracket_regex_none (s : List Char) (h : noBracket s = true) :
    regexFirstToLast s = none := by
  unfold regexFirstToLast
  cases ht : s.dropWhile (fun c => ! isLB c) with
  | nil => simp [ht]
  | cons x rest =>
    have hrest : rest.all (fun c => ! isRB c) = true := by
      unfold noBracket at h
      rw [ht] at h
      simpa using h
    have hx : x = '[' := by
      have := dropWhile_head_not (fun c => ! isLB c) s x rest ht
      simpa [isLB] using this
    have hall : ((x :: rest).reverse).all (fun c => ! isRB c) = true := by
      simp only [List.all_reverse, List.all_cons, hrest, Bool.and_true, hx]
      decide
    rw [dropWhile_all_nil _ _ hall]
    simp

theorem regex_head (s m : List Char) (h : regexFirstToLast s = some m) :
    ∃ m0, m = '[' :: m0 := by
  unfold regexFirstToLast at h
  cases ht : s.dropWhile (fun c => ! isLB c) with
  | nil =>
    rw [ht] at h
    simp at h
  | cons x rest =>
    rw [ht] at h
    by_cases hm : (((x :: rest).reverse.dropWhile fun c => ! isRB c).reverse).isEmpty = true
    · rw [if_pos hm] at h; exact absurd h (by simp)
    · rw [if_neg hm] at h
      have hx : x = '[' := by
        have := dropWhile_head_not (fun c => ! isLB c) s x rest ht
        simpa [isLB] using this
      have hsplit : (x :: rest).reverse.takeWhile (fun c => ! isRB c)
          ++ (x :: rest).reverse.dropWhile (fun c => ! isRB c) = (x :: rest).reverse :=
        List.takeWhile_append_dropWhile _ _
      have hdecomp : ((x :: rest).reverse.dropWhile (fun c => ! isRB c)).reverse
          ++ ((x :: rest).reverse.takeWhile (fun c => ! isRB c)).reverse = x :: rest := by
        rw [← List.reverse_append, hsplit, List.reverse_reverse]
      cases h
      cases hmm : ((x :: rest).reverse.dropWhile fun c => ! isRB c).reverse with
      | nil => rw [hmm] at hm; simp at hm
      | cons y ys =>
        rw [hmm] at hdecomp
        simp only [List.cons_append] at hdecomp
        refine ⟨ys, ?_⟩
        have hyx : y = x := ((List.cons.injEq _ _ _ _).mp hdecomp).1
        rw [hyx, hx]

theorem parseValue_lbrack (fuel : Nat) (r rest : List Char) (j : Json)
    (h : parseValue (fuel + 1) ('[' :: r) = some (j, rest)) : ∃ l, j = Json.arr l := by
  simp only [parseValue] at h
  rw [if_neg (by decide), if_pos (by decide)] at h
  split at h
  · cases h
    exact ⟨[], rfl⟩
  · rw [Option.map_eq_some'] at h
    obtain ⟨p, _, hp⟩ := h
    cases hp
    exact ⟨p.1, rfl⟩

theorem jsonLoads_lbrack_isArr (r : List Char) (j : Json)
    (h : jsonLoads ('[' :: r) = some j) : ∃ l, j = Json.arr l := by
  unfold jsonLoads at h
  rw [show skipWs ('[' :: r) = '[' :: r from dropWhile_cons_false _ _ _ (by decide)] at h
  cases hp : parseValue (('[' :: r).length + 1) ('[' :: r) with
  | none => rw [hp] at h; exact absurd h (by simp)
  | some p =>
    rw [hp] at h
    obtain ⟨j2, rest⟩ := p
    dsimp only at h
    have : ∃ l, j2 = Json.arr l :=
      parseValue_lbrack (('[' :: r).length) r rest j2 (by simpa using hp)
    by_cases hre : skipWs rest = []
    · rw [if_pos hre] at h
      cases h
      exact this
    · rw [if_neg hre] at h
      exact absurd h (by simp)

theorem repairChars_lbrack (r : List Char) :
    ∃ r2, repairChars ('[' :: r) = '[' :: r2 :=
  ⟨stripTrailCommaF ((r.map (fun c => if c = Char.ofNat 39 then '"' else c)).length + 1)
     (r.map (fun c => if c = Char.ofNat 39 then '"' else c)), rfl⟩

theorem extract_json_isArr (s : String) (j : Json) (h : extract_json s = some j) :
    ∃ l, j = Json.arr l := by
  unfold extract_json at h
  cases hr : regexFirstToLast s.toList with
  | none => rw [hr] at h; exact absurd h (by simp)
  | some m =>
    rw [hr] at h
    dsimp only at h
    obtain ⟨m0, rfl⟩ := regex_head s.toList m hr
    cases hs : jsonLoads ('[' :: m0) with
    | some v =>
      rw [hs] at h
      cases h
      exact jsonLoads_lbrack_isArr m0 _ hs
    | none =>
      rw [hs] at h
      obtain ⟨r2, hrep⟩ := repairChars_lbrack m0
      rw [hrep] at h
      exact jsonLoads_lbrack_isArr r2 j h

/-! Supporting lemmas about Python dict operations. -/

theorem pyGet_pyInsert_other (d : PyDict) (k : String) (v : Json) (q : String)
    (hne : ¬ k = q) : pyGet (pyInsert d k v) q = pyGet d q := by
  induction d with
  | nil => simp [pyInsert, pyGet, alookup, hne]
  | cons kv rest ih =>
    obtain ⟨k2, v2⟩ := kv
    by_cases h2 : k2 = k
    · subst h2
      rw [pyInsert, if_pos rfl]
      rw [pyGet, alookup, if_neg (by exact fun hq => hne hq)]
      rw [pyGet, alookup, if_neg (by exact fun hq => hne hq)]
    · rw [pyInsert, if_neg h2]
      by_cases hq : k2 = q
      · rw [pyGet, alookup, if_pos hq, pyGet, alookup, if_pos hq]
      · rw [pyGet, alookup, if_neg hq, pyGet, alookup, if_neg hq]
        exact ih

theorem hasKey_pyInsert (d : PyDict) (k : String) (v : Json) (q : String)
    (h : hasKey d q = true) : hasKey (pyInsert d k v) q = true := by
  by_cases hk : k = q
  · subst hk
    unfold hasKey
    induction d with
    | nil => simp [pyInsert, pyGet, alookup]
    | cons kv rest ih =>
      obtain ⟨k2, v2⟩ := kv
      by_cases h2 : k2 = k
      · rw [pyInsert, if_pos h2, pyGet, alookup, if_pos h2]
        rfl
      · rw [pyInsert, if_neg h2, pyGet, alookup, if_neg h2]
        rw [hasKey, pyGet, alookup, if_neg h2] at h
        exact ih h
  · rw [hasKey, pyGet_pyInsert_other d k v q hk]
    exact h

theorem hasKey_pyUpdate (b e : PyDict) (q : String) (h : hasKey b q = true) :
    hasKey (pyUpdate b e) q = true := by
  induction e generalizing b with
  | nil => exact h
  | cons kv e ih =>
    have hstep : pyUpdate b (kv :: e) = pyUpdate (pyInsert b kv.1 kv.2) e := rfl
    rw [hstep]
    exact ih _ (hasKey_pyInsert b kv.1 kv.2 q h)

theorem pyGet_pyUpdate_of_absent (b e : PyDict) (q : String) (he : alookup e q = none) :
    pyGet (pyUpdate b e) q = pyGet b q := by
  induction e generalizing b with
  | nil => rfl
  | cons kv e ih =>
    obtain ⟨k1, v1⟩ := kv
    rw [alookup] at he
    by_cases h1 : k1 = q
    · rw [if_pos h1] at he
      exact absurd he (by simp)
    · rw [if_neg h1] at he
      have hstep : pyUpdate b ((k1, v1) :: e) = pyUpdate (pyInsert b k1 v1) e := rfl
      rw [hstep, ih _ he, pyGet_pyInsert_other b k1 v1 q h1]

/-! Supporting lemmas about the normalizer scan. -/

theorem scanKeys_all_absent (act : PyDict) :
    ∀ ks : List String, ks.all (fun q => ! hasKey act q) = true → scanKeys ks act = act := by
  intro ks
  induction ks with
  | nil => intro _; rfl
  | cons k0 ks ih =>
    intro h
    simp only [List.all_cons, Bool.and_eq_true, Bool.not_eq_true'] at h
    rw [scanKeys, if_neg (by simp [h.1])]
    exact ih (by simpa using h.2)

theorem scanKeys_of_find (act : PyDict) :
    ∀ (ks : List String) (k : String), ks.find? (fun q => hasKey act q) = some k →
    scanKeys ks act =
      (match pyGet act k with
       | some (Json.str s) => [("action", Json.str k), ("selector", Json.str s)]
       | some (Json.obj d) => pyUpdate [("action", Json.str k)] d
       | _ => [("action", Json.str k)]) := by
  intro ks
  induction ks with
  | nil => intro k h; simp [List.find?] at h
  | cons k0 ks ih =>
    intro k h
    by_cases h0 : hasKey act k0 = true
    · have hk : k0 = k := by
        rw [List.find?] at h
        rw [h0] at h
        exact (Option.some.injEq _ _).mp h
      subst hk
      rw [scanKeys, if_pos h0]
    · have hfind : ks.find? (fun q => hasKey act q) = some k := by
        rw [List.find?] at h
        rw [Bool.not_eq_true] at h0
        rw [h0] at h
        exact h
      rw [scanKeys, if_neg (by simp [h0])]
      exact ih k hfind

theorem scanKeys_shape (act : PyDict) :
    ∀ ks : List String, scanKeys ks act = act ∨ hasKey (scanKeys ks act) "action" = true := by
  intro ks
  induction ks with
  | nil => exact Or.inl rfl
  | cons k0 ks ih =>
    by_cases h0 : hasKey act k0 = true
    · right
      rw [scanKeys, if_pos h0]
      cases hv : pyGet act k0 with
      | none => rfl
      | some v =>
        cases v with
        | str s => rfl
        | obj d =>
          exact hasKey_pyUpdate [("action", Json.str k0)] d "action" rfl
        | null => rfl
        | bool b => rfl
        | num n => rfl
        | arr l => rfl
    · rw [scanKeys, if_neg (by simp [h0])]
      exact ih

/-- C5 (amended): whenever the raw model output splits as `pre ++ core ++ post`
with no opening bracket in `pre` and no closing bracket in `post` — so the
greedy regex match is exactly `core` — and `core` is a bracketed array that
parses either strictly or after the repair pass (single quotes to double
quotes, trailing commas stripped), extraction succeeds and returns that
parse; the repair pass in particular recovers the array when the strict
parse fails. -/
theorem c5_extraction_with_repair (pre core post : List Char) (v : Json)
    (hpre : pre.all (fun c => ! isLB c) = true)
    (hpost : post.all (fun c => ! isRB c) = true)
    (hh : ∃ t1, core = '[' :: t1)
    (hl : ∃ t2, core = t2 ++ [']'])
    (hparse : jsonLoads core = some v ∨
      (jsonLoads core = none ∧ jsonLoads (repairChars core) = some v)) :
    extract_json (String.mk (pre ++ core ++ post)) = some v := by
  unfold extract_json
  have htl : (String.mk (pre ++ core ++ post)).toList = pre ++ core ++ post := rfl
  rw [htl, regex_decomp pre core post hpre hpost hh hl]
  dsimp only
  rcases hparse with hs | ⟨hn, hr⟩
  · rw [hs]
  · rw [hn, hr]

/-- Witness for C5: the spec's own example, surrounding prose plus an array
with single quotes and a trailing comma, extracted via the repair pass. -/
theorem c5_extraction_with_repair_witness :
    extract_json "Sure! [\x7b\x27action\x27: \x27click\x27, \x27selector\x27: \x27#go\x27,\x7d]"
      = some (Json.arr [Json.obj [("action", Json.str "click"), ("selector", Json.str "#go")]]) :=
  c5_extraction_with_repair "Sure! ".toList
    "[\x7b\x27action\x27: \x27click\x27, \x27selector\x27: \x27#go\x27,\x7d]".toList [] _
    rfl rfl
    ⟨"\x7b\x27action\x27: \x27click\x27, \x27selector\x27: \x27#go\x27,\x7d]".toList, rfl⟩
    ⟨"[\x7b\x27action\x27: \x27click\x27, \x27selector\x27: \x27#go\x27,\x7d".toList, rfl⟩
    (Or.inr ⟨rfl, rfl⟩)

/-- Counterexample for C5 as stated: `"[1]]"` contains the syntactically valid
bracketed array `[1]`, yet extraction fails, because the greedy regex match
runs from the first opening bracket to the *last* closing bracket of the
whole text and neither the strict nor the repaired parse accepts `[1]]`. -/
theorem c5_counterexample :
    extract_json "[1]]" = none ∧
    jsonLoads "[1]".toList = some (Json.arr [Json.num "1"]) ∧
    "[1]]".toList = "[1]".toList ++ [']'] :=
  ⟨rfl, rfl, rfl⟩

/-- C4 (amended): when the raw model output contains no bracketed array
(no opening bracket with a closing bracket after it), extraction yields
`none` and planning returns exactly one `explain` action — whose `message`
field is the fixed diagnostic string and whose `raw` field carries the raw
model output text. -/
theorem c4_no_array_explain_fallback (raw : String) (h : noBracket raw.toList = true) :
    extract_json raw = none ∧ plan_actions raw = [explainFallback raw] := by
  have he : extract_json raw = none := by
    unfold extract_json
    rw [noBracket_regex_none raw.toList h]
  refine ⟨he, ?_⟩
  unfold plan_actions
  rw [he]

/-- Witness for C4 at the bracketless output `"hello"`. -/
theorem c4_no_array_explain_fallback_witness :
    extract_json "hello" = none ∧ plan_actions "hello" = [explainFallback "hello"] :=
  c4_no_array_explain_fallback "hello" rfl

/-- Counterexample for C4 as stated: for the bracketless raw output
`"hello"`, the single synthesized explain action carries the raw text under
its `raw` key, while its `message` is the fixed string
`"Failed to parse model output"`, which differs from the raw text — so the
action's message is *not* the raw model output. -/
theorem c4_counterexample :
    plan_actions "hello" = [explainFallback "hello"] ∧
    explainFallback "hello" =
      Json.obj
        [("action", Json.str "explain"),
         ("message", Json.str "Failed to parse model output"),
         ("raw", Json.str "hello")] ∧
    ¬ ("Failed to parse model output" = "hello") :=
  ⟨rfl, rfl, by decide⟩

/-- C10: planning never returns an empty action list; in particular a raw
output whose extraction yields the empty array is treated like a parse
failure (Python's `if parsed:` is falsy on the empty list) and replaced by
the single explain fallback. -/
theorem c10_plan_nonempty :
    (∀ raw : String, plan_actions raw ≠ []) ∧
    (∀ raw : String, extract_json raw = some (Json.arr []) →
      plan_actions raw = [explainFallback raw]) := by
  constructor
  · intro raw
    unfold plan_actions
    split
    · exact List.cons_ne_nil _ _
    · exact List.cons_ne_nil _ _
  · intro raw h
    unfold plan_actions
    rw [h]

/-- Witness for C10 at the raw output `"[]"`, a valid but empty array. -/
theorem c10_plan_nonempty_witness :
    plan_actions "[]" = [explainFallback "[]"] ∧ plan_actions "[]" ≠ [] :=
  ⟨c10_plan_nonempty.2 "[]" rfl, c10_plan_nonempty.1 "[]"⟩

/-- C6: normalization is total and idempotent — normalizing a normalized
action returns it unchanged; an action that already has an `action` key
passes through unchanged; and an unrecognized shape (no `action` key, no
priority shorthand key) passes through unchanged as well. -/
theorem c6_normalize_total_idempotent :
    (∀ act : PyDict, normalize_action (normalize_action act) = normalize_action act) ∧
    (∀ act : PyDict, hasKey act "action" = true → normalize_action act = act) ∧
    (∀ act : PyDict, hasKey act "action" = false →
      priorityKeys.all (fun q => ! hasKey act q) = true → normalize_action act = act) := by
  have hpass : ∀ act : PyDict, hasKey act "action" = true → normalize_action act = act := by
    intro act h
    unfold normalize_action
    rw [if_pos h]
  refine ⟨?_, hpass, ?_⟩
  · intro act
    by_cases h : hasKey act "action" = true
    · rw [hpass act h]
      exact hpass act h
    · have hn : normalize_action act = scanKeys priorityKeys act := by
        unfold normalize_action
        rw [if_neg h]
      rcases scanKeys_shape act priorityKeys with hs | hs
      · rw [hn, hs]
        exact hn.trans hs
      · rw [hn]
        exact hpass _ hs
  · intro act h hall
    unfold normalize_action
    rw [if_neg (by simp [h]), scanKeys_all_absent act priorityKeys hall]

/-- Witness for C6 at a shorthand action and an already-canonical action. -/
theorem c6_normalize_total_idempotent_witness :
    normalize_action (normalize_action [("click", Json.str "#x")])
      = normalize_action [("click", Json.str "#x")] ∧
    normalize_action [("action", Json.str "fill"), ("selector", Json.str "#e")]
      = [("action", Json.str "fill"), ("selector", Json.str "#e")] :=
  ⟨c6_normalize_total_idempotent.1 [("click", Json.str "#x")],
   c6_normalize_total_idempotent.2.1 [("action", Json.str "fill"), ("selector", Json.str "#e")] rfl⟩

/-- C7 (amended): for a raw action without an `action` key whose first
present key among `click, fill, assert, wait, open, explain` is `k`: a
string value of `k` becomes the selector of a fresh `k`-action; a dict value
has its fields merged (update semantics) into the fresh `k`-action, so `k`
remains the kind unless the dict itself carries an `action` field, which then
overrides the kind; any other value leaves just the kind. -/
theorem c7_shorthand_scan (act : PyDict) (k : String)
    (hna : hasKey act "action" = false)
    (hfind : priorityKeys.find? (fun q => hasKey act q) = some k) :
    (∀ s, pyGet act k = some (Json.str s) →
      normalize_action act = [("action", Json.str k), ("selector", Json.str s)]) ∧
    (∀ d, pyGet act k = some (Json.obj d) →
      normalize_action act = pyUpdate [("action", Json.str k)] d ∧
      (hasKey d "action" = false →
        pyGet (normalize_action act) "action" = some (Json.str k))) ∧
    (∀ v, pyGet act k = some v → (∀ s, v ≠ Json.str s) → (∀ d, v ≠ Json.obj d) →
      normalize_action act = [("action", Json.str k)]) := by
  have hn : normalize_action act = scanKeys priorityKeys act := by
    unfold normalize_action
    rw [if_neg (by simp [hna])]
  have hsc := scanKeys_of_find act priorityKeys k hfind
  refine ⟨?_, ?_, ?_⟩
  · intro s hs
    rw [hn, hsc, hs]
  · intro d hd
    have hupd : normalize_action act = pyUpdate [("action", Json.str k)] d := by
      rw [hn, hsc, hd]
    refine ⟨hupd, ?_⟩
    intro hdna
    rw [hupd]
    have habs : alookup d "action" = none := by
      rw [hasKey, pyGet] at hdna
      cases hx : alookup d "action" with
      | none => rfl
      | some v => rw [hx] at hdna; exact absurd hdna (by simp)
    rw [pyGet_pyUpdate_of_absent _ d "action" habs]
    rfl
  · intro v hv hvs hvd
    rw [hn, hsc, hv]
    cases v with
    | str s => exact absurd rfl (hvs s)
    | obj d => exact absurd rfl (hvd d)
    | null => rfl
    | bool b => rfl
    | num n => rfl
    | arr l => rfl

/-- Witness for C7: the spec's own example, the `fill` shorthand with a dict
value, normalizes to the canonical fill action. -/
theorem c7_shorthand_scan_witness :
    normalize_action [("fill", Json.obj [("selector", Json.str "#email"), ("value", Json.str "a@b.com")])]
      = [("action", Json.str "fill"), ("selector", Json.str "#email"), ("value", Json.str "a@b.com")] :=
  ((c7_shorthand_scan
      [("fill", Json.obj [("selector", Json.str "#email"), ("value", Json.str "a@b.com")])]
      "fill" rfl rfl).2.1
    [("selector", Json.str "#email"), ("value", Json.str "a@b.com")] rfl).1

/-- Counterexample for C7 as stated: in
`\x7b"fill": \x7b"action": "click"\x7d\x7d` the first (and only) priority key
present is `fill`, yet the merged dict value overrides the kind, so the
normalized action kind is `click`, not `fill` — the first present key does
not always become the action kind. -/
theorem c7_counterexample :
    normalize_action [("fill", Json.obj [("action", Json.str "click")])]
      = [("action", Json.str "click")] ∧
    priorityKeys.find?
        (fun q => hasKey [("fill", Json.obj [("action", Json.str "click")])] q)
      = some "fill" ∧
    ¬ ("click" = "fill") :=
  ⟨rfl, rfl, by decide⟩

/-! Supporting lemma: the executor loop preserves the status/errors
relationship. -/

theorem execActions_inv (c : Controller) :
    ∀ (acts : List Json) (idx : Nat) (st : String) (errs : List ErrRecord)
      (res : String × List ErrRecord),
      execActions c acts idx st errs = Except.ok res →
      (st = "ok" ∨ st = "failed") →
      (st = "failed" → errs ≠ []) →
      ((res.1 = "ok" ∨ res.1 = "failed") ∧ (res.1 = "failed" → res.2 ≠ [])) := by
  intro acts
  induction acts with
  | nil =>
    intro idx st errs res h h1 h2
    unfold execActions at h
    cases h
    exact ⟨h1, h2⟩
  | cons raw rest ih =>
    intro idx st errs res h h1 h2
    cases raw with
    | obj act0 =>
      unfold execActions at h
      dsimp only at h
      rcases hstep : stepRes c idx (normalize_action act0) with e | o
      · rw [hstep] at h
        dsimp only at h
        exact ih (idx + 1) "failed" _ res h (Or.inr rfl) (fun _ => by simp)
      · rw [hstep] at h
        cases o with
        | none =>
          dsimp only at h
          exact ih (idx + 1) st errs res h h1 h2
        | some r =>
          dsimp only at h
          exact ih (idx + 1) st (errs ++ [r]) res h h1 (fun _ => by simp)
    | null => unfold execActions at h; exact absurd h (by simp)
    | bool b => unfold execActions at h; exact absurd h (by simp)
    | num n => unfold execActions at h; exact absurd h (by simp)
    | str s => unfold execActions at h; exact absurd h (by simp)
    | arr l => unfold execActions at h; exact absurd h (by simp)

/-- C3: whenever `execute_test` returns a result (rather than crashing on a
non-dict action), its status is `"ok"` exactly when its error list is empty —
any recorded error (caught exception, explain action, unknown kind, describe
failure) forces the final status to `"failed"`. -/
theorem c3_status_iff_errors (c : Controller) (describeErr : Option String)
    (llmRaw test_step : String) (r : TestResult)
    (h : execute_test c describeErr llmRaw test_step = Except.ok r) :
    (r.status = "ok" ↔ r.errors = []) := by
  unfold execute_test at h
  rcases hex : execActions c (plan_actions llmRaw) 0 "ok" (initErrs describeErr) with e | p
  · rw [hex] at h
    exact absurd h (by simp [Except.map])
  · rw [hex] at h
    dsimp only [Except.map] at h
    obtain ⟨st, errs⟩ := p
    have hinv := execActions_inv c (plan_actions llmRaw) 0 "ok" (initErrs describeErr)
      (st, errs) hex (Or.inl rfl) (fun hf => absurd hf (by decide))
    cases h
    by_cases he : errs.isEmpty = true
    · have hnil : errs = [] := by simpa [List.isEmpty_iff] using he
      have hst : st = "ok" := by
        rcases hinv.1 with h3 | h3
        · exact h3
        · exact absurd (hinv.2 h3) (by simp [hnil])
      dsimp only
      rw [if_pos he, hst, hnil]
      simp
    · have hne : ¬ errs = [] := by
        simpa [List.isEmpty_iff] using he
      dsimp only
      rw [if_neg he]
      constructor
      · intro hcon
        exact absurd hcon (by decide)
      · intro hcon
        exact absurd hcon hne

/-- Witness for C3: a run whose planning fell back to an explain action,
whose record makes the final status `"failed"` with a nonempty error list. -/
theorem c3_status_iff_errors_witness :
    ({ instruction := "s", actions := [explainFallback "nojson"], status := "failed",
       errors := [⟨some 0, some (Json.str "Failed to parse model output"), none, none⟩] }
        : TestResult).status = "ok"
      ↔ ({ instruction := "s", actions := [explainFallback "nojson"], status := "failed",
           errors := [⟨some 0, some (Json.str "Failed to parse model output"), none, none⟩] }
            : TestResult).errors = [] :=
  c3_status_iff_errors ⟨none, []⟩ none "nojson" "s" _ rfl

/-! Concrete environments and evaluations for the executor-level claims. -/

/-- Page for the C1 scenario: navigation succeeds, the consent button and the
email field appear within the bounded wait, the welcome element never does. -/
def pgC1 : PageEnv :=
  { url := "about:blank", gotoErr := fun _ => none, queryFails := false, domElements := [],
    elems := [("#accept", ⟨true, "Accept all"⟩), ("#email", ⟨true, ""⟩)] }

def cC1 : Controller :=
  { page := some pgC1, domCache := [] }

/-- Raw model output planning exactly open, click, fill, assert. -/
def rawC1 : String :=
  "[\x7b\"action\": \"open\", \"selector\": \"https://ex.com\"\x7d, \x7b\"action\": \"click\", \"selector\": \"#accept\"\x7d, \x7b\"action\": \"fill\", \"selector\": \"#email\", \"value\": \"a@b.com\"\x7d, \x7b\"action\": \"assert\", \"selector\": \"#welcome\", \"expected\": \"Welcome\"\x7d]"

def c1Actions : List Json :=
  [Json.obj [("action", Json.str "open"), ("selector", Json.str "https://ex.com")],
   Json.obj [("action", Json.str "click"), ("selector", Json.str "#accept")],
   Json.obj [("action", Json.str "fill"), ("selector", Json.str "#email"),
             ("value", Json.str "a@b.com")],
   Json.obj [("action", Json.str "assert"), ("selector", Json.str "#welcome"),
             ("expected", Json.str "Welcome")]]

set_option maxRecDepth 8000 in
/-- C1 evaluated on the code: with open/click/fill succeeding and the welcome
element never appearing, the assert's bounded wait times out inside
`assert_text`, which swallows it and returns `false`; `execute_test`
discards that boolean, so the run ends with status `"ok"` and an *empty*
error list — not status `"failed"` with one error at index 3. -/
theorem c1_assert_failure_unrecorded :
    execute_test cC1 none rawC1 "login flow"
      = Except.ok
          { instruction := "login flow", actions := c1Actions, status := "ok", errors := [] } ∧
    locatorWait pgC1 (some "#welcome")
      = Except.error "Timeout 5000ms exceeded waiting for #welcome" ∧
    assert_text cC1 (some "#welcome") "Welcome" = Except.ok false :=
  ⟨rfl, rfl, rfl⟩

/-- Page for the C2 scenario: `#ok` appears, `#missing` never does. -/
def pgC2 : PageEnv :=
  { url := "about:blank", gotoErr := fun _ => none, queryFails := false, domElements := [],
    elems := [("#ok", ⟨true, ""⟩)] }

def cC2 : Controller :=
  { page := some pgC2, domCache := [] }

def rawC2 : String :=
  "[\x7b\"action\": \"fill\", \"selector\": \"#missing\", \"value\": \"x\"\x7d, \x7b\"action\": \"click\", \"selector\": \"#ok\"\x7d]"

def c2Actions : List Json :=
  [Json.obj [("action", Json.str "fill"), ("selector", Json.str "#missing"),
             ("value", Json.str "x")],
   Json.obj [("action", Json.str "click"), ("selector", Json.str "#ok")]]

set_option maxRecDepth 8000 in
/-- C2 evaluated on the code: the fill's bounded wait fails (the selector
never appears), but `PlaywrightController.fill` catches the exception and
only logs a warning, so `execute_test` sees no exception and records
*nothing* — the test finishes with status `"ok"` and an empty error list
instead of a failure record carrying the offending action and its index.
Execution does continue past the failing action. -/
theorem c2_swallowed_failure_unrecorded :
    locatorWait pgC2 (some "#missing")
      = Except.error "Timeout 5000ms exceeded waiting for #missing" ∧
    fill cC2 (some "#missing") "x" = Except.ok () ∧
    execute_test cC2 none rawC2 "fill then click"
      = Except.ok
          { instruction := "fill then click", actions := c2Actions, status := "ok",
            errors := [] } :=
  ⟨rfl, rfl, rfl⟩

/-- Appending a fresh cache entry makes it visible to lookup. -/
theorem alookup_append_self {α : Type} (m : List (String × α)) (k : String) (v : α)
    (h : alookup m k = none) : alookup (m ++ [(k, v)]) k = some v := by
  induction m with
  | nil => simp [alookup]
  | cons kv rest ih =>
    obtain ⟨k1, v1⟩ := kv
    rw [alookup] at h
    by_cases h1 : k1 = k
    · rw [if_pos h1] at h
      exact absurd h (by simp)
    · rw [if_neg h1] at h
      simp only [List.cons_append, alookup, if_neg h1]
      exact ih h

/-- C8 (amended): provided the underlying element query does not raise,
summarizing twice in one session queries at most once in total — the second
call performs no query at all and returns the same summary, because the
first (cache-missing) call populated the per-URL cache.  (When the query
raises, nothing is cached and each call re-queries; see the
counterexample.) -/
theorem c8_cache_single_query (c : Controller) (pg : PageEnv)
    (hp : c.page = some pg) (hq : pg.queryFails = false) :
    (get_page_elements ((get_page_elements c).2.1)).2.2 = 0 ∧
    (get_page_elements c).2.2 + (get_page_elements ((get_page_elements c).2.1)).2.2 ≤ 1 ∧
    (get_page_elements ((get_page_elements c).2.1)).1 = (get_page_elements c).1 := by
  cases hc : alookup c.domCache pg.url with
  | some cached =>
    have h1 : get_page_elements c = (cached, c, 0) := by
      unfold get_page_elements
      rw [hp]
      dsimp only
      rw [hc]
    refine ⟨?_, ?_, ?_⟩ <;> simp [h1]
  | none =>
    have h1 : get_page_elements c
        = ((pg.domElements.filter (fun e => ! e.broken)).map elemToDict,
           { c with domCache := c.domCache ++
               [(pg.url, (pg.domElements.filter (fun e => ! e.broken)).map elemToDict)] },
           1) := by
      unfold get_page_elements
      rw [hp]
      dsimp only
      rw [hc]
      dsimp only
      rw [hq]
      simp
    have h2 : get_page_elements
        ({ c with domCache := c.domCache ++
            [(pg.url, (pg.domElements.filter (fun e => ! e.broken)).map elemToDict)] })
        = ((pg.domElements.filter (fun e => ! e.broken)).map elemToDict,
           { c with domCache := c.domCache ++
               [(pg.url, (pg.domElements.filter (fun e => ! e.broken)).map elemToDict)] },
           0) := by
      unfold get_page_elements
      have hp2 : ({ c with domCache := c.domCache ++
          [(pg.url, (pg.domElements.filter (fun e => ! e.broken)).map elemToDict)] }
            : Controller).page = some pg := hp
      rw [hp2]
      dsimp only
      rw [alookup_append_self c.domCache pg.url _ hc]
    refine ⟨?_, ?_, ?_⟩ <;> simp [h1, h2]

/-- Controller whose page's element query raises. -/
def pgQF : PageEnv :=
  { url := "u", gotoErr := fun _ => none, queryFails := true, domElements := [], elems := [] }

def cQF : Controller :=
  { page := some pgQF, domCache := [] }

/-- Counterexample for C8 as stated: when `query_selector_all` raises, the
exception handler returns an empty summary *without* caching, so summarizing
the same URL twice performs the query twice — more than "at most once" — and
the cache never gets populated. -/
theorem c8_counterexample :
    get_page_elements cQF = ([], cQF, 1) ∧
    get_page_elements ((get_page_elements cQF).2.1) = ([], cQF, 1) :=
  ⟨rfl, rfl⟩

/-- Controller for the C8 witness: query succeeds. -/
def pgCW : PageEnv :=
  { url := "w", gotoErr := fun _ => none, queryFails := false, domElements := [], elems := [] }

def cCW : Controller :=
  { page := some pgCW, domCache := [] }

/-- Witness for C8 on a concrete working session. -/
theorem c8_cache_single_query_witness :
    (get_page_elements ((get_page_elements cCW).2.1)).2.2 = 0 ∧
    (get_page_elements cCW).2.2 + (get_page_elements ((get_page_elements cCW).2.1)).2.2 ≤ 1 ∧
    (get_page_elements ((get_page_elements cCW).2.1)).1 = (get_page_elements cCW).1 :=
  c8_cache_single_query cCW pgCW rfl rfl

/-- The controller before any context/page exists. -/
def cNoPage : Controller :=
  { page := none, domCache := [] }

/-- C9 (amended): with no page available, `open_page`, `fill`, `click` and
`wait_for` raise the `RuntimeError` immediately; but `assert_text` instead
returns `False` and `get_page_elements` returns an empty summary — two
session operations convert the condition into a recoverable result rather
than surfacing it. -/
theorem c9_no_page_behaviour (c : Controller) (h : c.page = none)
    (sel : Option String) (txt : String) :
    open_page c sel = Except.error noPageMsg ∧
    fill c sel txt = Except.error noPageMsg ∧
    click c sel = Except.error noPageMsg ∧
    wait_for c sel = Except.error noPageMsg ∧
    assert_text c sel txt = Except.ok false ∧
    get_page_elements c = ([], c, 0) := by
  unfold open_page fill click wait_for assert_text get_page_elements
  rw [h]
  exact ⟨rfl, rfl, rfl, rfl, rfl, rfl⟩

/-- Witness for C9 at the uninitialized controller. -/
theorem c9_no_page_behaviour_witness :
    open_page cNoPage (some "#x") = Except.error noPageMsg ∧
    fill cNoPage (some "#x") "v" = Except.error noPageMsg ∧
    click cNoPage (some "#x") = Except.error noPageMsg ∧
    wait_for cNoPage (some "#x") = Except.error noPageMsg ∧
    assert_text cNoPage (some "#x") "v" = Except.ok false ∧
    get_page_elements cNoPage = ([], cNoPage, 0) :=
  c9_no_page_behaviour cNoPage rfl (some "#x") "v"

/-- Counterexample for C9 as stated: invoked before initialization,
`assert_text` returns the recoverable value `False` and `get_page_elements`
returns an empty summary — neither surfaces a fatal error to its caller. -/
theorem c9_counterexample :
    assert_text cNoPage (some "#x") "hi" = Except.ok false ∧
    get_page_elements cNoPage = ([], cNoPage, 0) :=
  ⟨rfl, rfl⟩
